import Mathlib

/-!
# Verification of the shade normalization-and-filtering core

Shallow embedding of `shade/_normalize.py` (resource normalizers) and of the
`shade/_utils.py` filtering helpers (the latter are absent from the source
tree — only their unit tests in `shade/tests/unit/test__utils.py` are — so
they are modelled from the specification, amended where the unit tests pin
the behavior).

Python dictionaries with heterogeneous JSON-like values are embedded as
association lists of `String × Value`; Python exceptions become an `Err`
sum type threaded through `Except`.
-/

namespace Shade

/-- A JSON-like Python value as appearing in raw and canonical resource
records: strings, integers, booleans, `None`, floats (as rationals),
lists and string-keyed dicts (as association lists). -/
inductive Value where
  | str : String → Value
  | int : Int → Value
  | bool : Bool → Value
  | none : Value
  | float : Rat → Value
  | list : List Value → Value
  | dict : List (String × Value) → Value

mutual

/-- Structural equality test on values. -/
def vbeq : Value → Value → Bool
  | .str a, .str b => a == b
  | .int a, .int b => a == b
  | .bool a, .bool b => a == b
  | .none, .none => true
  | .float a, .float b => a == b
  | .list a, .list b => lbeq a b
  | .dict a, .dict b => dbeq a b
  | _, _ => false

/-- Structural equality test on value lists. -/
def lbeq : List Value → List Value → Bool
  | [], [] => true
  | a :: as, b :: bs => vbeq a b && lbeq as bs
  | _, _ => false

/-- Structural equality test on association lists of values. -/
def dbeq : List (String × Value) → List (String × Value) → Bool
  | [], [] => true
  | (k, a) :: as, (l, b) :: bs => k == l && vbeq a b && dbeq as bs
  | _, _ => false

end

mutual

theorem vbeq_iff : (a b : Value) → (vbeq a b = true ↔ a = b)
  | .str _, b => by cases b <;> simp [vbeq]
  | .int _, b => by cases b <;> simp [vbeq]
  | .bool _, b => by cases b <;> simp [vbeq]
  | .none, b => by cases b <;> simp [vbeq]
  | .float _, b => by cases b <;> simp [vbeq]
  | .list as, .str _ => by simp [vbeq]
  | .list as, .int _ => by simp [vbeq]
  | .list as, .bool _ => by simp [vbeq]
  | .list as, .none => by simp [vbeq]
  | .list as, .float _ => by simp [vbeq]
  | .list as, .dict _ => by simp [vbeq]
  | .list as, .list bs => by simp [vbeq, lbeq_iff as bs]
  | .dict as, .str _ => by simp [vbeq]
  | .dict as, .int _ => by simp [vbeq]
  | .dict as, .bool _ => by simp [vbeq]
  | .dict as, .none => by simp [vbeq]
  | .dict as, .float _ => by simp [vbeq]
  | .dict as, .list _ => by simp [vbeq]
  | .dict as, .dict bs => by simp [vbeq, dbeq_iff as bs]

theorem lbeq_iff : (as bs : List Value) → (lbeq as bs = true ↔ as = bs)
  | [], [] => by simp [lbeq]
  | [], _ :: _ => by simp [lbeq]
  | _ :: _, [] => by simp [lbeq]
  | a :: as, b :: bs => by
    simp [lbeq, vbeq_iff a b, lbeq_iff as bs]

theorem dbeq_iff : (as bs : List (String × Value)) → (dbeq as bs = true ↔ as = bs)
  | [], [] => by simp [dbeq]
  | [], _ :: _ => by simp [dbeq]
  | _ :: _, [] => by simp [dbeq]
  | (k, a) :: as, (l, b) :: bs => by
    simp [dbeq, vbeq_iff a b, dbeq_iff as bs, Prod.ext_iff, and_assoc]

end

instance : DecidableEq Value :=
  fun a b => decidable_of_iff (vbeq a b = true) (vbeq_iff a b)

/-- A Python dict with string keys: an association list, first binding wins. -/
abbrev Rec := List (String × Value)

/-- `d[k]` / `d.get(k)`: first binding for `k`, if any. -/
def rlookup : Rec → String → Option Value
  | [], _ => Option.none
  | (k, v) :: r, key => if k = key then some v else rlookup r key

/-- Remove every binding of `key` (a Python dict holds at most one). -/
def rerase : Rec → String → Rec
  | [], _ => []
  | (k, v) :: r, key => if k = key then rerase r key else (k, v) :: rerase r key

/-- `d[k] = v`: replace the first binding of `k` in place, else append. -/
def rset : Rec → String → Value → Rec
  | [], key, v => [(key, v)]
  | (k, w) :: r, key, v =>
    if k = key then (key, v) :: r else (k, w) :: rset r key v

/-- `d.setdefault(k, v)`: append `(k, v)` only when `k` is absent. -/
def rsetdefault (r : Rec) (key : String) (v : Value) : Rec :=
  if (rlookup r key).isSome then r else r ++ [(key, v)]

/-- `d.pop(k, default)`: value (or default) together with the dict minus `k`. -/
def rpopD (r : Rec) (key : String) (dflt : Value) : Value × Rec :=
  ((rlookup r key).getD dflt, rerase r key)

/-- Python exceptions relevant to the embedded code. -/
inductive Err where
  | keyError : String → Err
  | valueError : String → Err
  | typeError : String → Err
  | attributeError : String → Err
  | cloudException : String → Err
deriving DecidableEq

deriving instance DecidableEq for Except

/-- `d.pop(k)` without default: `KeyError` when `k` is absent. -/
def rpop (r : Rec) (key : String) : Except Err (Value × Rec) :=
  match rlookup r key with
  | some v => .ok (v, rerase r key)
  | Option.none => .error (.keyError key)

/-- Python truthiness: `None`, `0`, `0.0`, `False`, `""`, `[]`, `{}` are falsy. -/
def pyFalsy : Value → Bool
  | .none => true
  | .int n => n == 0
  | .float q => q == 0
  | .bool b => !b
  | .str s => s == ""
  | .list l => l.isEmpty
  | .dict d => d.isEmpty

def pyTruthy (v : Value) : Bool := !pyFalsy v

/-- Python `str(value)` for the scalar shapes that reach error messages
(only strings ever do, via the `ValueError` path of `int()`). -/
def pyStr : Value → String
  | .str s => s
  | .int n => toString n
  | .bool b => if b then "True" else "False"
  | .none => "None"
  | .float q => toString q
  | .list _ => "[...]"
  | .dict _ => "{...}"

/-- Decimal digit run to a number: `none` as soon as a non-digit appears. -/
def digitsVal : List Char → Nat → Option Nat
  | [], acc => some acc
  | c :: cs, acc =>
    if c.isDigit then digitsVal cs (acc * 10 + (c.toNat - 48))
    else Option.none

/-- The integer parse behind Python `int(str)`: an optional minus sign
followed by at least one decimal digit. -/
def strToInt? (s : String) : Option Int :=
  match s.data with
  | [] => Option.none
  | '-' :: cs =>
    match cs with
    | [] => Option.none
    | _ => (digitsVal cs 0).map (fun n => -(n : Int))
  | cs => (digitsVal cs 0).map (fun n => (n : Int))

/-- Python `int(value)`: ints pass through, bools are 0/1, floats truncate
toward zero, strings parse as (optionally signed) decimal integers
(`ValueError` otherwise), everything else is a `TypeError`. -/
def pyToInt : Value → Except Err Int
  | .int n => .ok n
  | .bool b => .ok (if b then 1 else 0)
  | .float q => .ok (q.num / (q.den : Int))
  | .str s =>
    match strToInt? s with
    | some n => .ok n
    | Option.none => .error (.valueError s)
  | .none => .error (.typeError "int() argument must not be None")
  | .list _ => .error (.typeError "int() argument must not be a list")
  | .dict _ => .error (.typeError "int() argument must not be a dict")

/-- Digits of an unsigned decimal with an optional single dot, as a
rational (the core of Python `float(str)`). -/
def decimalCore (cs : List Char) : Option Rat :=
  let intPart := cs.takeWhile (· ≠ '.')
  match cs.dropWhile (· ≠ '.') with
  | [] => (digitsVal intPart 0).map (fun n => (n : Rat))
  | '.' :: frac =>
    if intPart = [] ∧ frac = [] then Option.none
    else
      match (if intPart.isEmpty then some 0 else digitsVal intPart 0),
            (if frac.isEmpty then some 0 else digitsVal frac 0) with
      | some a, some b =>
        some ((a : Rat) + (b : Rat) / ((10 : Rat) ^ frac.length))
      | _, _ => Option.none
  | _ => Option.none

/-- Decimal string to rational, for Python `float(str)`: forms `a`, `a.b`,
`.b`, `a.`, with an optional leading minus sign. -/
def parseDecimal (s : String) : Option Rat :=
  match s.data with
  | [] => Option.none
  | '-' :: cs =>
    match cs with
    | [] => Option.none
    | _ => (decimalCore cs).map Neg.neg
  | cs => decimalCore cs

/-- Python `float(value)`. -/
def pyToFloat : Value → Except Err Rat
  | .int n => .ok n
  | .bool b => .ok (if b then 1 else 0)
  | .float q => .ok q
  | .str s =>
    match parseDecimal s with
    | some q => .ok q
    | Option.none => .error (.valueError s)
  | .none => .error (.typeError "float() argument must not be None")
  | .list _ => .error (.typeError "float() argument must not be a list")
  | .dict _ => .error (.typeError "float() argument must not be a dict")

/-- ASCII lowercase of a string (Python `str.lower` on the relevant
inputs). -/
def strToLower (s : String) : String := ⟨s.data.map Char.toLower⟩

/-- `shade._normalize._to_bool`: empty string is false, a non-empty string
is true iff `value.lower().capitalize() == 'True'` (case-insensitive
`"true"`), anything else is Python truthiness. -/
def to_bool : Value → Bool
  | .str s => if s = "" then false else strToLower s = "true"
  | v => pyTruthy v

/-- `shade._normalize._pop_int`: `int(resource.pop(key, 0) or 0)`. -/
def pop_int (resource : Rec) (key : String) : Except Err (Int × Rec) :=
  let (v, r) := rpopD resource key (.int 0)
  let v := if pyFalsy v then Value.int 0 else v
  (pyToInt v).map (fun n => (n, r))

/-- `shade._normalize._pop_float`: `float(resource.pop(key, 0) or 0)`. -/
def pop_float (resource : Rec) (key : String) : Except Err (Rat × Rec) :=
  let (v, r) := rpopD resource key (.int 0)
  let v := if pyFalsy v then Value.int 0 else v
  (pyToFloat v).map (fun q => (q, r))

/-- `shade._normalize._pop_or_get`: pop in strict mode, get otherwise. -/
def pop_or_get (resource : Rec) (key : String) (dflt : Value) (strict : Bool) :
    Value × Rec :=
  if strict then rpopD resource key dflt
  else ((rlookup resource key).getD dflt, resource)

/-- `value.pop(k, None)` on a nested `Value` (dicts only), discarding the
popped entry; `AttributeError` on non-dicts, as in Python. -/
def vpop (v : Value) (key : String) : Except Err Value :=
  match v with
  | .dict d => .ok (.dict (rerase d key))
  | _ => .error (.attributeError "pop")

/-- `value.get(k, None)` on a nested `Value`. -/
def vget (v : Value) (key : String) : Except Err Value :=
  match v with
  | .dict d => .ok ((rlookup d key).getD .none)
  | _ => .error (.attributeError "get")

/-- `value.setdefault(k, w)` on a nested `Value`. -/
def vsetdefault (v : Value) (key : String) (w : Value) : Except Err Value :=
  match v with
  | .dict d => .ok (.dict (rsetdefault d key w))
  | _ => .error (.attributeError "setdefault")

/-- `value.items()` on a nested `Value`. -/
def vitems (v : Value) : Except Err Rec :=
  match v with
  | .dict d => .ok d
  | _ => .error (.attributeError "items")

/-- The ambient context a `Normalizer` mix-in reads: the strict-mode flag,
`self.current_location`, `self.region_name`, `self.name`, and
`self._get_current_location(project_id=..., zone=...)`. -/
structure Ctx where
  strict_mode : Bool
  current_location : Value
  region_name : String
  name : String
  getLocation : Value → Value → Value

/-- The non-strict backwards-compat flattening loop shared by the
normalizers: `for k, v in props: ret.setdefault(k, v)`. -/
def flattenProps (ret : Rec) (props : Rec) : Rec :=
  props.foldl (fun acc kv => rsetdefault acc kv.1 kv.2) ret

/-- `_IMAGE_FIELDS` of `shade/_normalize.py`. -/
def IMAGE_FIELDS : List String :=
  ["checksum", "container_format", "created_at", "direct_url", "disk_format",
   "file", "id", "min_disk", "min_ram", "name", "owner", "size", "status",
   "tags", "updated_at", "virtual_size"]

/-- `_SERVER_FIELDS` of `shade/_normalize.py`. -/
def SERVER_FIELDS : List String :=
  ["accessIPv4", "accessIPv6", "addresses", "adminPass", "created",
   "key_name", "metadata", "networks", "private_v4", "public_v4",
   "public_v6", "security_groups", "status", "updated", "user_id"]

/-- `Normalizer._normalize_flavor` of `shade/_normalize.py` up to the
strict-mode check: pops and coercions in source order. The source assigns
thirteen distinct literal keys into a fresh `Munch`, which is exactly an
association list in assignment order; the function returns that record
together with the leftover (unclaimed) fields that the source stores under
`properties` and later flattens. -/
def normalize_flavor_core (ctx : Ctx) (flavor0 : Rec) : Except Err (Rec × Rec) := do
  -- flavor = flavor.copy(); discard noise keys
  let flavor := rerase (rerase (rerase (rerase flavor0 "links")
    "NAME_ATTR") "HUMAN_ID") "human_id"
  -- ephemeral = int(_pop_or_get(flavor, 'OS-FLV-EXT-DATA:ephemeral', 0, strict))
  let (ev, flavor) := pop_or_get flavor "OS-FLV-EXT-DATA:ephemeral" (.int 0)
    ctx.strict_mode
  let eph0 ← pyToInt ev
  -- ephemeral = flavor.pop('ephemeral', ephemeral)   (no coercion here)
  let (ephemeral, flavor) := rpopD flavor "ephemeral" (.int eph0)
  let (ipv, flavor) := pop_or_get flavor "os-flavor-access:is_public"
    (.bool true) ctx.strict_mode
  let (ipv2, flavor) := rpopD flavor "is_public" (.bool (to_bool ipv))
  let is_public := to_bool ipv2
  let (idis, flavor) := pop_or_get flavor "OS-FLV-DISABLED:disabled"
    (.bool false) ctx.strict_mode
  let is_disabled := to_bool idis
  let (extra_specs, flavor) := rpopD flavor "extra_specs" (.dict [])
  let (idv, flavor) ← rpop flavor "id"
  let (namev, flavor) ← rpop flavor "name"
  let (ram, flavor) ← pop_int flavor "ram"
  let (vcpus, flavor) ← pop_int flavor "vcpus"
  let (disk, flavor) ← pop_int flavor "disk"
  let (swap, flavor) ← pop_int flavor "swap"
  let (rxtx, flavor) ← pop_float flavor "rxtx_factor"
  return ([("location", ctx.current_location), ("id", idv), ("name", namev),
    ("is_public", .bool is_public), ("is_disabled", .bool is_disabled),
    ("ram", .int ram), ("vcpus", .int vcpus), ("disk", .int disk),
    ("ephemeral", ephemeral), ("swap", .int swap),
    ("rxtx_factor", .float rxtx), ("properties", .dict flavor),
    ("extra_specs", extra_specs)], flavor)

/-- `Normalizer._normalize_flavor`: the core followed by the non-strict
backwards-compat flattening (`new_flavor.setdefault(k, v)` over
`new_flavor['properties'].items()`). -/
def normalize_flavor (ctx : Ctx) (flavor0 : Rec) : Except Err Rec := do
  let (nf, leftover) ← normalize_flavor_core ctx flavor0
  if ctx.strict_mode then return nf else return flattenProps nf leftover

/-- `Normalizer._normalize_image` of `shade/_normalize.py`. Unlike every
other normalizer, the source takes no `image.copy()` before popping, so the
caller's dict is mutated; the model therefore also returns the final state
of the caller's record (what remains after all the pops). -/
def normalize_image (ctx : Ctx) (image0 : Rec) : Except Err (Rec × Rec) := do
  -- new_image = Munch(location=self._get_current_location(project_id=image.get('owner')))
  let image := image0
  let loc := ctx.getLocation ((rlookup image "owner").getD .none) .none
  let ni : Rec := [("location", loc)]
  let (properties, image) := rpopD image "properties" (.dict [])
  let (visibility, image) := rpopD image "visibility" .none
  let (protectedV, image) := rpopD image "protected" (.bool false)
  let isProtected := to_bool protectedV
  let (is_public, visibility, image) :=
    if pyTruthy visibility then
      -- is_public = (visibility == 'public')
      (Value.bool (decide (visibility = Value.str "public")), visibility, image)
    else
      -- is_public = image.pop('is_public', False); visibility from its truthiness
      let (ipv, image) := rpopD image "is_public" (.bool false)
      (ipv, Value.str (if pyTruthy ipv then "public" else "private"), image)
  -- for field in _IMAGE_FIELDS: new_image[field] = image.pop(field, None)
  let st := IMAGE_FIELDS.foldl (fun (p : Rec × Rec) f =>
    let (v, img) := rpopD p.2 f .none
    (rset p.1 f v, img)) (ni, image)
  let ni := st.1
  let image := st.2
  -- for field in (...): new_image[field] = _pop_int(new_image, field)
  let ni ← ["min_ram", "min_disk", "size", "virtual_size"].foldlM
    (fun (ni : Rec) f =>
      (pop_int ni f).map (fun p => rset p.2 f (.int p.1))) ni
  let ni := rset ni "is_protected" (.bool isProtected)
  let (locs, image) := rpopD image "locations" (.list [])
  let ni := rset ni "locations" locs
  -- for key, val in image.items(): properties.setdefault(key, val)
  let properties ← image.foldlM (fun p kv => vsetdefault p kv.1 kv.2) properties
  let ni := rset ni "properties" properties
  let ni := rset ni "visibility" visibility
  let ni := rset ni "is_public" is_public
  if ctx.strict_mode then
    return (ni, image)
  else
    -- for key, val in properties.items(): new_image[key] = val   (assignment!)
    let items ← vitems properties
    let ni := items.foldl (fun acc kv => rset acc kv.1 kv.2) ni
    let ni := rset ni "protected" (.bool isProtected)
    return (ni, image)

/-- Python `value == -1` on a heterogeneous value: true for the integer
`-1` and the float `-1.0`; strings (even `"-1"`) and everything else
compare unequal. -/
def pyEqNeg1 : Value → Bool
  | .int n => n == -1
  | .float q => q == -1
  | _ => false

/-- `Normalizer._normalize_secgroup_rule` of `shade/_normalize.py`.
Python evaluates default arguments eagerly, so in
`rule.get('port_range_min', rule.pop('from_port', None))` the `from_port`
pop always happens while `port_range_min` is only *read* (it stays in the
leftover), and in `rule.pop('port_range_max', rule.pop('to_port', None))`
both keys are always popped. The source's guarded `int()` conversion after
the `port_range_max` extraction is applied to `port_range_min` (again), as
written on lines 256-257. The eleven `ret[...]` assignments use distinct
literal keys on a fresh `Munch` and are modelled as a literal record. -/
def normalize_secgroup_rule (ctx : Ctx) (rule0 : Rec) : Except Err Rec := do
  let rule := rule0   -- rule = rule.copy()
  let (idv, rule) ← rpop rule "id"
  let (direction, rule) := rpopD rule "direction" (.str "ingress")
  let (ethertype, rule) := rpopD rule "ethertype" (.str "IPv4")
  let (fromPort, rule) := rpopD rule "from_port" .none
  let prMin0 := (rlookup rule "port_range_min").getD fromPort
  let prMin1 := if pyEqNeg1 prMin0 then Value.none else prMin0
  let prMin2 ← if prMin1 = Value.none then pure Value.none
    else (pyToInt prMin1).map Value.int
  -- ret['port_range_min'] is assigned (line 251) before the second guarded
  -- conversion below, so that conversion only rebinds the local variable
  let (toPort, rule) := rpopD rule "to_port" .none
  let (prMax0, rule) := rpopD rule "port_range_max" toPort
  let prMax1 := if pyEqNeg1 prMax0 then Value.none else prMax0
  -- lines 256-257: if port_range_min is not None: port_range_min = int(...)
  let _prMin3 ← if prMin2 = Value.none then pure Value.none
    else (pyToInt prMin2).map Value.int
  let (ipProto, rule) := rpopD rule "ip_protocol" .none
  let (protocol, rule) := rpopD rule "protocol" ipProto
  let (ipRange, rule) := rpopD rule "ip_range" (.dict [])
  let cidr ← vget ipRange "cidr"
  let (remoteIpPrefix, rule) := rpopD rule "remote_ip_prefix" cidr
  let (parentGroupId, rule) := rpopD rule "parent_group_id" .none
  let (securityGroupId, rule) := rpopD rule "security_group_id" parentGroupId
  let (remoteGroupId, rule) := rpopD rule "remote_group_id" .none
  let (tenantId, rule) := rpopD rule "tenant_id" (.str "")
  let (projectId, rule) := rpopD rule "project_id" tenantId
  let ret : Rec := [("id", idv), ("direction", direction),
    ("ethertype", ethertype), ("port_range_min", prMin2),
    ("port_range_max", prMax1), ("protocol", protocol),
    ("remote_ip_prefix", remoteIpPrefix),
    ("security_group_id", securityGroupId),
    ("remote_group_id", remoteGroupId),
    ("location", ctx.getLocation projectId .none),
    ("properties", .dict rule)]
  if ctx.strict_mode then
    return ret
  else
    let ret := rset ret "tenant_id" projectId
    let ret := rset ret "project_id" projectId
    return flattenProps ret rule

/-- `Normalizer._normalize_server` of `shade/_normalize.py`: the shallow
`server.copy()`, noise stripping, the mandatory `id`/`name`/`flavor`/`image`
accesses (raising `KeyError` when absent), the string check on `image`
(`str(server['image']) != server['image']` skips link-stripping exactly for
strings), the strict-aware pops, the `_SERVER_FIELDS` sweep and the
non-strict backwards-compat block. The `ret[...]` assignments use distinct
literal keys on a fresh `Munch` and are modelled as a literal record. -/
def normalize_server (ctx : Ctx) (server0 : Rec) : Except Err Rec := do
  let server := rerase (rerase (rerase (rerase server0 "links")
    "NAME_ATTR") "HUMAN_ID") "human_id"
  let (idv, server) ← rpop server "id"
  let (namev, server) ← rpop server "name"
  -- server['flavor'].pop('links', None); ret['flavor'] = server.pop('flavor')
  let flavorV0 ← match rlookup server "flavor" with
    | some v => pure v
    | Option.none => .error (.keyError "flavor")
  let flavorV ← vpop flavorV0 "links"
  let server := rerase server "flavor"
  -- if str(server['image']) != server['image']: server['image'].pop('links', None)
  let imageV0 ← match rlookup server "image" with
    | some v => pure v
    | Option.none => .error (.keyError "image")
  let imageV ← match imageV0 with
    | .str s => pure (Value.str s)
    | v => vpop v "links"
  let server := rerase server "image"
  let (tenantId, server) := rpopD server "tenant_id" (.str "")
  let (projectId, server) := rpopD server "project_id" tenantId
  let (az, server) := pop_or_get server "OS-EXT-AZ:availability_zone" .none
    ctx.strict_mode
  let (volumes, server) := pop_or_get server
    "os-extended-volumes:volumes_attached" (.list []) ctx.strict_mode
  let (config_drive, server) := rpopD server "config_drive" (.bool false)
  let (host_id, server) := rpopD server "hostId" .none
  let (progress, server) ← pop_int server "progress"
  let (disk_config, server) := pop_or_get server "OS-DCF:diskConfig" .none
    ctx.strict_mode
  let (power_state, server) := pop_or_get server "OS-EXT-STS:power_state"
    .none ctx.strict_mode
  let (task_state, server) := pop_or_get server "OS-EXT-STS:task_state"
    .none ctx.strict_mode
  let (vm_state, server) := pop_or_get server "OS-EXT-STS:vm_state"
    .none ctx.strict_mode
  let (launched_at, server) := pop_or_get server "OS-SRV-USG:launched_at"
    .none ctx.strict_mode
  let (terminated_at, server) := pop_or_get server "OS-SRV-USG:terminated_at"
    .none ctx.strict_mode
  -- for field in _SERVER_FIELDS: ret[field] = server.pop(field, None)
  let st := SERVER_FIELDS.foldl (fun (p : Rec × Rec) f =>
    let (v, srv) := rpopD p.2 f .none
    (p.1 ++ [(f, v)], srv)) (([] : Rec), server)
  let fieldVals := st.1
  let server := st.2
  let ret : Rec := [("id", idv), ("name", namev), ("flavor", flavorV),
    ("image", imageV), ("location", ctx.getLocation projectId az),
    ("volumes", volumes), ("has_config_drive", .bool (to_bool config_drive)),
    ("host_id", host_id), ("progress", .int progress),
    ("disk_config", disk_config), ("power_state", power_state),
    ("task_state", task_state), ("vm_state", vm_state),
    ("launched_at", launched_at), ("terminated_at", terminated_at)]
    ++ fieldVals
    ++ [("interface_ip", .str ""), ("properties", .dict server)]
  if ctx.strict_mode then
    return ret
  else
    let ret := rset ret "hostId" host_id
    let ret := rset ret "config_drive" config_drive
    let ret := rset ret "project_id" projectId
    let ret := rset ret "tenant_id" projectId
    let ret := rset ret "region" (.str ctx.region_name)
    let ret := rset ret "cloud" (.str ctx.name)
    let ret := rset ret "az" az
    return flattenProps ret server

/-- The failure message of the Safe Extremum Finder, from the spec (§4.2)
and the unit tests: `"Search for minimum/maximum value failed. Value for
<key> is not an integer: <value>"`. Bracketed so that the two variants
share their entire suffix. -/
def extremumMsg (wantMax : Bool) (key : String) (v : Value) : String :=
  (if wantMax then "Search for maximum value failed. Value for "
   else "Search for minimum value failed. Value for ") ++
  (key ++ (" is not an integer: " ++ pyStr v))

/-- Modelled from the spec: `shade/_utils.py` is absent from the source
tree (only `shade/tests/unit/test__utils.py` is), so the Safe Extremum
Finder (§4.2, `safe_dict_min` / `safe_dict_max`) is modelled from the
spec's words, amended where the unit tests pin the behavior: per
`test_safe_dict_min_None` / `test_safe_dict_max_None` a key present with
value `None` is skipped exactly like an absent key (the spec's "present
falsy contributes 0" disagrees there); other present values go through
`int()`, whose `ValueError` (and only `ValueError`) is turned into the
cloud-exception message; an int-valued accumulator keeps the running
minimum (or maximum); no contribution at all yields the absent result. -/
def safe_dict_extremum (wantMax : Bool) (key : String) :
    List Rec → Option Int → Except Err (Option Int)
  | [], acc => .ok acc
  | d :: ds, acc =>
    match rlookup d key with
    | Option.none => safe_dict_extremum wantMax key ds acc
    | some v =>
      if v = Value.none then safe_dict_extremum wantMax key ds acc
      else
        match pyToInt v with
        | .ok n =>
          safe_dict_extremum wantMax key ds
            (some (match acc with
              | Option.none => n
              | some m => if wantMax then max m n else min m n))
        | .error (.valueError _) =>
          .error (.cloudException (extremumMsg wantMax key v))
        | .error e => .error e

/-- Modelled from the spec (§4.2): the minimum search. -/
def safe_dict_min (key : String) (data : List Rec) : Except Err (Option Int) :=
  safe_dict_extremum false key data Option.none

/-- Modelled from the spec (§4.2): the maximum search. -/
def safe_dict_max (key : String) (data : List Rec) : Except Err (Option Int) :=
  safe_dict_extremum true key data Option.none

/-- Modelled from the spec: `parse_range` of the absent `shade/_utils.py`
(§4.1): `None` or unparseable input gives `nil`; otherwise a longest-match
comparison prefix (`<=`, `>=`, `<`, `>`) whose remainder must parse as an
integer, or a bare integer with no operator. -/
def parse_range : Option String → Option (Option String × Int)
  | Option.none => Option.none
  | some s =>
    let p : Option String × String :=
      match s.data with
      | '<' :: '=' :: rest => (some "<=", ⟨rest⟩)
      | '>' :: '=' :: rest => (some ">=", ⟨rest⟩)
      | '<' :: rest => (some "<", ⟨rest⟩)
      | '>' :: rest => (some ">", ⟨rest⟩)
      | _ => (Option.none, s)
    match strToInt? p.2 with
    | some n => some (p.1, n)
    | Option.none => Option.none

/-- A parsed comparison applied to a record value; an absent operator is
implicit exact equality (spec §4.4). -/
def applyRangeOp (op : Option String) (n bound : Int) : Bool :=
  match op with
  | Option.none => n == bound
  | some "<" => decide (n < bound)
  | some ">" => decide (bound < n)
  | some "<=" => decide (n ≤ bound)
  | some ">=" => decide (bound ≤ n)
  | some _ => false

/-- Does the record's `key`, coerced to int, equal `m`? Used for the
min/max tie selection of `range_filter`. -/
def keyIntEq (d : Rec) (key : String) (m : Int) : Bool :=
  match rlookup d key with
  | some v => decide (pyToInt v = .ok m)
  | Option.none => false

/-- Modelled from the spec: `range_filter` of the absent `shade/_utils.py`
(§4.4): `"min"`/`"max"` select every record tying the extremum computed by
the Safe Extremum Finder (an absent extremum matches nothing); any other
string goes through `parse_range`, a failed parse raising the
cloud-exception `"Invalid range value: <original string>"`, and a
successful parse keeping the records whose `key` (coerced to int)
satisfies the comparison, in input order. -/
def range_filter (data : List Rec) (key : String) (range_str : String) :
    Except Err (List Rec) :=
  if range_str = "min" then
    (safe_dict_min key data).map (fun m =>
      match m with
      | Option.none => []
      | some n => data.filter (fun d => keyIntEq d key n))
  else if range_str = "max" then
    (safe_dict_max key data).map (fun m =>
      match m with
      | Option.none => []
      | some n => data.filter (fun d => keyIntEq d key n))
  else
    match parse_range (some range_str) with
    | Option.none =>
      .error (.cloudException ("Invalid range value: " ++ range_str))
    | some (op, bound) =>
      .ok (data.filter (fun d =>
        match rlookup d key with
        | some v =>
          match pyToInt v with
          | .ok n => applyRangeOp op n bound
          | .error _ => false
        | Option.none => false))

/-- The running extremum of a list of contributions on top of an optional
seed: the reference (spec-side) description of what the Safe Extremum
Finder computes. -/
def extFold (wantMax : Bool) (acc : Option Int) (l : List Int) : Option Int :=
  l.foldl (fun a n =>
    some (match a with
      | Option.none => n
      | some m => if wantMax then max m n else min m n)) acc

/-- The contributions of a record sequence for `key`: each present,
non-`None`, int-coercible value, in order (spec-side reference
description; `None` is skipped because `int(None)` is no contribution). -/
def contribs (key : String) (data : List Rec) : List Int :=
  data.filterMap (fun d =>
    match rlookup d key with
    | some v => (pyToInt v).toOption
    | Option.none => Option.none)

/-- `key`, if present on `d`, holds either `None` or an int-coercible
value (the well-formedness under which the extremum scan cannot fail). -/
def intishAt (key : String) (d : Rec) : Bool :=
  match rlookup d key with
  | some v => decide (v = Value.none) || (pyToInt v).toOption.isSome
  | Option.none => true

/-- `key`, if present on `d`, is `None` or a scalar whose `int()` failure
(if any) is a `ValueError`, never an uncaught `TypeError`. -/
def scalarAt (key : String) (d : Rec) : Bool :=
  match rlookup d key with
  | some v =>
    match pyToInt v with
    | .error (.typeError _) => decide (v = Value.none)
    | _ => true
  | Option.none => true

/-- `key` is present on `d` with a value whose `int()` raises
`ValueError`. -/
def badAt (key : String) (d : Rec) : Bool :=
  match rlookup d key with
  | some v =>
    match pyToInt v with
    | .error (.valueError _) => true
    | _ => false
  | Option.none => false

/-! ## Test fixtures -/

/-- A non-strict ambient context with inert location resolution. -/
def ctxTest : Ctx :=
  { strict_mode := false, current_location := Value.none,
    region_name := "RegionOne", name := "testcloud",
    getLocation := fun _ _ => Value.none }

/-- A raw image record with only promoted fields. -/
def imgMut : Rec :=
  [("id", .str "i1"), ("name", .str "img"), ("status", .str "active")]

/-- A raw image whose vendor `properties` bag collides with the canonical
`id` field. -/
def imgOvr : Rec :=
  [("id", .str "orig"), ("name", .str "img"),
   ("properties", .dict [("id", .str "evil")])]

/-- The data of `test_safe_dict_min_None` / `test_safe_dict_max_None`. -/
def noneData : List Rec :=
  [[("f1", .int 3)], [("f1", Value.none)], [("f1", .int 1)]]

/-- A raw flavor with one vendor-extension field (`weird`). -/
def flvTest : Rec :=
  [("id", .str "f"), ("name", .str "fl"), ("ram", .int 1024),
   ("weird", .str "x")]

/-- Success projection, for naming a normalizer's concrete output. -/
def okOr (x : Except Err Rec) : Rec :=
  match x with
  | .ok r => r
  | .error _ => []

/-- A nova-convention security-group rule with unbounded ports. -/
def secruleTest : Rec :=
  [("id", .str "r1"), ("from_port", .int (-1)), ("to_port", .int (-1))]

/-- A neutron-convention rule carrying numeric *strings* for both port
bounds. -/
def secruleStrTest : Rec :=
  [("id", .str "r2"), ("port_range_min", .str "80"),
   ("port_range_max", .str "81")]

/-- A raw server booted from volume: `image` is a bare string. -/
def srvTest : Rec :=
  [("id", .str "s1"), ("name", .str "srv"),
   ("flavor", .dict [("id", .str "f1"), ("links", .list [])]),
   ("image", .str "vol-boot")]

/-- `RANGE_DATA` of `shade/tests/unit/test__utils.py`. -/
def RANGE_DATA : List Rec := [
  [("id", .int 1), ("key1", .int 1), ("key2", .int 5)],
  [("id", .int 2), ("key1", .int 1), ("key2", .int 20)],
  [("id", .int 3), ("key1", .int 2), ("key2", .int 10)],
  [("id", .int 4), ("key1", .int 2), ("key2", .int 30)],
  [("id", .int 5), ("key1", .int 3), ("key2", .int 40)],
  [("id", .int 6), ("key1", .int 3), ("key2", .int 40)]]


/-! ## Record-operation lemmas -/

@[simp]
theorem rlookup_nil (k : String) : rlookup [] k = Option.none := rfl

@[simp]
theorem rlookup_cons (p : String × Value) (r : Rec) (k : String) :
    rlookup (p :: r) k = if p.1 = k then some p.2 else rlookup r k := by
  cases p; rfl

@[simp]
theorem rlookup_rerase (r : Rec) (k k' : String) :
    rlookup (rerase r k) k' = if k' = k then Option.none else rlookup r k' := by
  induction r with
  | nil => simp [rerase]
  | cons p r ih =>
    obtain ⟨a, v⟩ := p
    by_cases hak : a = k
    · subst hak
      rw [show rerase ((a, v) :: r) a = rerase r a from if_pos rfl, ih]
      by_cases hk' : k' = a
      · simp [hk']
      · have haks : ¬ (a = k') := fun h => hk' h.symm
        simp [hk', haks]
    · rw [show rerase ((a, v) :: r) k = (a, v) :: rerase r k from if_neg hak]
      by_cases hk' : k' = k
      · subst hk'
        have haks : ¬ (a = k') := hak
        simp [haks, ih]
      · by_cases hav : a = k'
        · simp [hav, hk']
        · simp [hav, hk', ih]

theorem rlookup_append (r s : Rec) (k : String) :
    rlookup (r ++ s) k =
      match rlookup r k with
      | some v => some v
      | Option.none => rlookup s k := by
  induction r with
  | nil => simp
  | cons p r ih =>
    by_cases h : p.1 = k <;> simp [h, ih]

theorem rlookup_rset (r : Rec) (k : String) (v : Value) (k' : String) :
    rlookup (rset r k v) k' = if k' = k then some v else rlookup r k' := by
  induction r with
  | nil =>
    show rlookup [(k, v)] k' = _
    by_cases hk' : k' = k
    · simp [hk']
    · have h : ¬ (k = k') := fun h => hk' h.symm
      simp [hk', h]
  | cons p r ih =>
    obtain ⟨a, w⟩ := p
    by_cases hak : a = k
    · subst hak
      rw [show rset ((a, w) :: r) a v = (a, v) :: r from if_pos rfl]
      by_cases hk' : k' = a
      · simp [hk']
      · have haks : ¬ (a = k') := fun h => hk' h.symm
        simp [hk', haks]
    · rw [show rset ((a, w) :: r) k v = (a, w) :: rset r k v from if_neg hak]
      by_cases hav : a = k'
      · have hk'k : ¬ (k' = k) := fun h => hak (hav.trans h)
        simp [hav, hk'k]
      · simp [hav, ih]

theorem rlookup_rsetdefault (r : Rec) (k : String) (v : Value) (k' : String) :
    rlookup (rsetdefault r k v) k' =
      if k' = k then
        match rlookup r k with
        | some w => some w
        | Option.none => some v
      else rlookup r k' := by
  unfold rsetdefault
  by_cases hs : (rlookup r k).isSome
  · obtain ⟨w, hw⟩ := Option.isSome_iff_exists.mp hs
    rw [if_pos hs]
    by_cases hk : k' = k
    · subst hk
      simp [hw]
    · simp [hk]
  · have hn : rlookup r k = Option.none := Option.not_isSome_iff_eq_none.mp hs
    rw [if_neg hs, rlookup_append]
    by_cases hk : k' = k
    · subst hk
      simp [hn, rlookup]
    · have hks : ¬ (k = k') := fun h => hk h.symm
      rw [if_neg hk]
      cases hrk : rlookup r k' <;> simp [hrk, rlookup, hks]

theorem rlookup_flattenProps_of_isSome (nf props : Rec) (k : String)
    (h : (rlookup nf k).isSome) :
    rlookup (flattenProps nf props) k = rlookup nf k := by
  induction props generalizing nf with
  | nil => rfl
  | cons p rest ih =>
    show rlookup (flattenProps (rsetdefault nf p.1 p.2) rest) k = rlookup nf k
    obtain ⟨w, hw⟩ := Option.isSome_iff_exists.mp h
    have hset : rlookup (rsetdefault nf p.1 p.2) k = rlookup nf k := by
      rw [rlookup_rsetdefault]
      by_cases hk : k = p.1
      · subst hk
        simp [hw]
      · simp [hk]
    rw [ih _ (by rw [hset]; exact h), hset]

theorem rlookup_flattenProps_of_none (nf props : Rec) (k : String)
    (h : rlookup nf k = Option.none) :
    rlookup (flattenProps nf props) k = rlookup props k := by
  induction props generalizing nf with
  | nil => simp [flattenProps, h]
  | cons p rest ih =>
    show rlookup (flattenProps (rsetdefault nf p.1 p.2) rest) k = _
    by_cases hk : k = p.1
    · have hset : rlookup (rsetdefault nf p.1 p.2) k = some p.2 := by
        rw [rlookup_rsetdefault, if_pos hk, ← hk]
        simp [h]
      rw [rlookup_flattenProps_of_isSome _ _ _ (by rw [hset]; rfl), hset]
      have hpk : p.1 = k := hk.symm
      simp [hpk]
    · have hset : rlookup (rsetdefault nf p.1 p.2) k = Option.none := by
        rw [rlookup_rsetdefault]
        simp [hk, h]
      rw [ih _ hset]
      have : ¬ (p.1 = k) := fun hh => hk hh.symm
      simp [this]

@[simp]
theorem rpopD_fst (r : Rec) (k : String) (d : Value) :
    (rpopD r k d).1 = (rlookup r k).getD d := rfl

@[simp]
theorem rpopD_snd (r : Rec) (k : String) (d : Value) :
    (rpopD r k d).2 = rerase r k := rfl

/-- Looking up a key other than `tenant_id`/`project_id` through the
non-strict backwards-compat block (the two `rset`s followed by the
setdefault flattening) sees the underlying record unchanged. -/
theorem rlookup_compat_block (L : Rec) (p : Value) (left : Rec) (k : String)
    (h1 : ¬ (k = "tenant_id")) (h2 : ¬ (k = "project_id"))
    (hsome : (rlookup L k).isSome) :
    rlookup (flattenProps (rset (rset L "tenant_id" p) "project_id" p) left) k
      = rlookup L k := by
  have hs : rlookup (rset (rset L "tenant_id" p) "project_id" p) k
      = rlookup L k := by
    rw [rlookup_rset, if_neg h2, rlookup_rset, if_neg h1]
  rw [rlookup_flattenProps_of_isSome _ _ _ (by rw [hs]; exact hsome), hs]

/-- `_pop_int` succeeds and leaves the key erased whenever the key is
absent or holds a falsy or integer value. -/
theorem pop_int_ok (r : Rec) (k : String)
    (hp : ∀ v, rlookup r k = some v → pyFalsy v = true ∨ ∃ n, v = Value.int n) :
    ∃ m, pop_int r k = .ok (m, rerase r k) := by
  unfold pop_int
  rcases hv : rlookup r k with _ | v
  · exact ⟨0, by simp [rpopD, hv, pyFalsy, pyToInt, Except.map]⟩
  · rcases hp v hv with hfal | ⟨n, rfl⟩
    · exact ⟨0, by simp [rpopD, hv, hfal, pyToInt, Except.map]⟩
    · rcases hpf : pyFalsy (Value.int n) with _ | _
      · exact ⟨n, by simp [rpopD, hv, hpf, pyToInt, Except.map]⟩
      · exact ⟨0, by simp [rpopD, hv, hpf, pyToInt, Except.map]⟩

/-! ## Claim theorems -/

/-- C1: the spec says every normalizer defensively copies the caller's raw
input before popping, but `_normalize_image` takes no copy: normalizing an
image record pops every promoted field off the caller's dict, leaving it
(here) empty, while the original record was not empty. The other five
normalizers do copy (each with a comment stating that intent), so this is
a slip in the code rather than in the spec. -/
theorem c1_image_normalizer_mutates_input :
    (normalize_image ctxTest imgMut).map Prod.snd = .ok [] ∧ imgMut ≠ [] := by
  decide

/-- C2 counterexample: the claim "the top-level duplication never
overwrites a canonical field already set by the normalizer" fails for the
image normalizer at this concrete input: the raw `properties` bag carries
an `id` entry, and the non-strict flattening loop uses plain assignment
(`new_image[key] = val`), so the canonical `id` (set from the raw `id`
field, `"orig"`) is overwritten with the bag's `"evil"`. -/
theorem c2_counterexample_image_flatten_overwrites_id :
    (normalize_image ctxTest imgOvr).map (fun p => rlookup p.1 "id") =
      .ok (some (.str "evil")) ∧ Value.str "evil" ≠ Value.str "orig" := by
  decide

/-- C3 counterexample: the claim says a record whose key is present with
the falsy value `None` contributes `0`, which would make the minimum of
`[{f1: 3}, {f1: None}, {f1: 1}]` equal `0`; the Safe Extremum Finder (as
pinned by the repository's own `test_safe_dict_min_None`) skips the `None`
record instead and returns `1`. -/
theorem c3_counterexample_none_skipped :
    safe_dict_min "f1" noneData = .ok (some 1) ∧
    safe_dict_min "f1" noneData ≠ .ok (some 0) := by
  decide

/-- C5: a range string other than `"min"`/`"max"` that the Comparator
Parser rejects (not a bare integer nor a recognized comparator followed by
an integer) makes `range_filter` fail with the cloud-exception message
`"Invalid range value: <original string>"`, echoing the exact input. -/
theorem c5_invalid_range_error (data : List Rec) (key s : String)
    (h1 : s ≠ "min") (h2 : s ≠ "max")
    (h3 : parse_range (some s) = Option.none) :
    range_filter data key s =
      .error (.cloudException ("Invalid range value: " ++ s)) := by
  unfold range_filter
  rw [if_neg h1, if_neg h2, h3]

/-- C5 witness: the `test_range_filter_invalid_int` input `"<1A0"`. -/
theorem c5_invalid_range_error_witness :
    range_filter RANGE_DATA "key1" "<1A0" =
      .error (.cloudException "Invalid range value: <1A0") :=
  c5_invalid_range_error RANGE_DATA "key1" "<1A0" (by decide) (by decide)
    (by decide)

/-- C6: when the Safe Extremum Finder yields a minimum (resp. maximum) `n`
for `key`, `range_filter` with `"min"` (resp. `"max"`) succeeds and returns
exactly the records whose `key` coerces to `n` — all ties — as a sublist of
the input, i.e. keeping the input's relative order. -/
theorem c6_range_filter_min_max_ties (data : List Rec) (key : String) :
    (∀ n, safe_dict_min key data = .ok (some n) →
      ∃ out, range_filter data key "min" = .ok out ∧
        (∀ d, d ∈ out ↔ d ∈ data ∧ keyIntEq d key n = true) ∧
        out.Sublist data) ∧
    (∀ n, safe_dict_max key data = .ok (some n) →
      ∃ out, range_filter data key "max" = .ok out ∧
        (∀ d, d ∈ out ↔ d ∈ data ∧ keyIntEq d key n = true) ∧
        out.Sublist data) := by
  constructor
  · intro n h
    refine ⟨data.filter (fun d => keyIntEq d key n), ?_, ?_, ?_⟩
    · unfold range_filter
      rw [if_pos rfl, h]
      rfl
    · intro d
      simp [List.mem_filter]
    · exact List.filter_sublist data
  · intro n h
    refine ⟨data.filter (fun d => keyIntEq d key n), ?_, ?_, ?_⟩
    · unfold range_filter
      rw [if_neg (by decide), if_pos rfl, h]
      rfl
    · intro d
      simp [List.mem_filter]
    · exact List.filter_sublist data

/-- C6 witness: on `RANGE_DATA`, `key1` has minimum 1 and maximum 3. -/
theorem c6_range_filter_min_max_ties_witness :
    (∃ out, range_filter RANGE_DATA "key1" "min" = .ok out ∧
      (∀ d, d ∈ out ↔ d ∈ RANGE_DATA ∧ keyIntEq d "key1" 1 = true) ∧
      out.Sublist RANGE_DATA) ∧
    (∃ out, range_filter RANGE_DATA "key1" "max" = .ok out ∧
      (∀ d, d ∈ out ↔ d ∈ RANGE_DATA ∧ keyIntEq d "key1" 3 = true) ∧
      out.Sublist RANGE_DATA) :=
  ⟨(c6_range_filter_min_max_ties RANGE_DATA "key1").1 1 (by decide),
   (c6_range_filter_min_max_ties RANGE_DATA "key1").2 3 (by decide)⟩

theorem safe_dict_extremum_eq_fold (wantMax : Bool) (key : String) :
    ∀ (data : List Rec) (acc : Option Int),
    (∀ d ∈ data, intishAt key d = true) →
    safe_dict_extremum wantMax key data acc =
      .ok (extFold wantMax acc (contribs key data)) := by
  intro data
  induction data with
  | nil => intro acc _; rfl
  | cons d ds ih =>
    intro acc h
    have hds : ∀ d' ∈ ds, intishAt key d' = true :=
      fun d' hm => h d' (List.mem_cons_of_mem d hm)
    have hd : intishAt key d = true := h d (List.mem_cons_self d ds)
    unfold safe_dict_extremum
    rcases hl : rlookup d key with _ | v
    · simp only [hl]
      have hc : contribs key (d :: ds) = contribs key ds := by
        simp [contribs, hl]
      rw [hc]
      exact ih acc hds
    · simp only [hl]
      by_cases hv : v = Value.none
      · rw [if_pos hv]
        have hc : contribs key (d :: ds) = contribs key ds := by
          simp [contribs, hl, hv, pyToInt, Except.toOption]
        rw [hc]
        exact ih acc hds
      · rw [if_neg hv]
        unfold intishAt at hd
        rw [hl] at hd
        simp only [hv, decide_False, Bool.false_or] at hd
        rcases hp : pyToInt v with e | n
        · rw [hp] at hd
          simp [Except.toOption] at hd
        · simp only [hp]
          have hc : contribs key (d :: ds) = n :: contribs key ds := by
            simp [contribs, hl, hp, Except.toOption]
          rw [hc]
          exact ih _ hds

/-- C3 (amended): the Safe Extremum Finder's result is exactly the
minimum (resp. maximum) of the *contributions* — the present, non-`None`,
int-coercible values of `key`, in which a present `0` contributes `0` —
while a record whose `key` is absent *or present with value `None`* is
skipped, and an empty contribution list yields the absent result, not
zero. -/
theorem c3_extremum_contributions (key : String) (data : List Rec)
    (h : ∀ d ∈ data, intishAt key d = true) :
    safe_dict_min key data =
      .ok (extFold false Option.none (contribs key data)) ∧
    safe_dict_max key data =
      .ok (extFold true Option.none (contribs key data)) :=
  ⟨safe_dict_extremum_eq_fold false key data Option.none h,
   safe_dict_extremum_eq_fold true key data Option.none h⟩

/-- C3 witness: on the data of `test_safe_dict_min_None`, the `None`
record is skipped; the contributions are `[3, 1]`, so the minimum is 1 and
the maximum 3. -/
theorem c3_extremum_contributions_witness :
    (safe_dict_min "f1" noneData =
      .ok (extFold false Option.none (contribs "f1" noneData)) ∧
     safe_dict_max "f1" noneData =
      .ok (extFold true Option.none (contribs "f1" noneData))) ∧
    contribs "f1" noneData = [3, 1] :=
  ⟨c3_extremum_contributions "f1" noneData (by decide), by decide⟩

theorem pyToInt_error_shape (v : Value) (e : Err) (h : pyToInt v = .error e) :
    (∃ s, e = Err.valueError s) ∨ (∃ s, e = Err.typeError s) := by
  cases v with
  | str s =>
    rcases hst : strToInt? s with _ | n
    · simp only [pyToInt, hst] at h
      exact Or.inl ⟨s, (Except.error.injEq _ _).mp h.symm⟩
    · simp [pyToInt, hst] at h
  | int n => simp [pyToInt] at h
  | bool b => simp [pyToInt] at h
  | float q => simp [pyToInt] at h
  | none =>
    simp only [pyToInt] at h
    exact Or.inr ⟨_, (Except.error.injEq _ _).mp h.symm⟩
  | list l =>
    simp only [pyToInt] at h
    exact Or.inr ⟨_, (Except.error.injEq _ _).mp h.symm⟩
  | dict d =>
    simp only [pyToInt] at h
    exact Or.inr ⟨_, (Except.error.injEq _ _).mp h.symm⟩

theorem extremumMsg_ne (key : String) (v : Value) :
    extremumMsg false key v ≠ extremumMsg true key v := by
  unfold extremumMsg
  simp only [Bool.false_eq_true, if_false, if_true, reduceIte]
  intro h
  have hd := congrArg String.data h
  rw [String.data_append, String.data_append] at hd
  have hpre := List.append_cancel_right hd
  have : ("Search for minimum value failed. Value for " : String).data ≠
      ("Search for maximum value failed. Value for " : String).data := by
    decide
  exact this hpre

theorem safe_dict_extremum_err (key : String) :
    ∀ (data : List Rec),
    (∀ d ∈ data, scalarAt key d = true) →
    data.any (badAt key) = true →
    ∃ v, (∃ d ∈ data, rlookup d key = some v) ∧
      ∀ (wantMax : Bool) (acc : Option Int),
        safe_dict_extremum wantMax key data acc =
          .error (.cloudException (extremumMsg wantMax key v)) := by
  intro data
  induction data with
  | nil => intro _ hex; simp at hex
  | cons d ds ih =>
    intro hty hex
    have htyds : ∀ d' ∈ ds, scalarAt key d' = true :=
      fun d' hm => hty d' (List.mem_cons_of_mem d hm)
    have htyd : scalarAt key d = true := hty d (List.mem_cons_self d ds)
    rcases hl : rlookup d key with _ | v
    · have hbd : badAt key d = false := by simp [badAt, hl]
      rw [List.any_cons, hbd, Bool.false_or] at hex
      obtain ⟨v, ⟨d', hd', hlv⟩, herr⟩ := ih htyds hex
      refine ⟨v, ⟨d', List.mem_cons_of_mem _ hd', hlv⟩, fun wantMax acc => ?_⟩
      unfold safe_dict_extremum
      simp only [hl]
      exact herr wantMax acc
    · by_cases hv : v = Value.none
      · have hbd : badAt key d = false := by
          simp [badAt, hl, hv, pyToInt]
        rw [List.any_cons, hbd, Bool.false_or] at hex
        obtain ⟨v', ⟨d', hd', hlv⟩, herr⟩ := ih htyds hex
        refine ⟨v', ⟨d', List.mem_cons_of_mem _ hd', hlv⟩, fun wantMax acc => ?_⟩
        unfold safe_dict_extremum
        simp only [hl, if_pos hv]
        exact herr wantMax acc
      · rcases hp : pyToInt v with e | n
        · rcases pyToInt_error_shape v e hp with ⟨s, hs⟩ | ⟨s, hs⟩
          · refine ⟨v, ⟨d, List.mem_cons_self d ds, hl⟩, fun wantMax acc => ?_⟩
            unfold safe_dict_extremum
            simp only [hl, if_neg hv, hp, hs]
          · exfalso
            unfold scalarAt at htyd
            simp only [hl] at htyd
            rw [hp, hs] at htyd
            simp at htyd
            exact hv htyd
        · have hbd : badAt key d = false := by simp [badAt, hl, hp]
          rw [List.any_cons, hbd, Bool.false_or] at hex
          obtain ⟨v', ⟨d', hd', hlv⟩, herr⟩ := ih htyds hex
          refine ⟨v', ⟨d', List.mem_cons_of_mem _ hd', hlv⟩, fun wantMax acc => ?_⟩
          unfold safe_dict_extremum
          simp only [hl, if_neg hv, hp]
          exact herr wantMax _

/-- C4: when some record's value for `key` is present and not
int-coercible (and every present value is `None` or a scalar, so the
failure is the caught `ValueError`), both searches fail with the
cloud-exception message naming the key and the offending value, the
minimum wording `"Search for minimum value failed. Value for <key> is not
an integer: <value>"`, the maximum wording with `maximum`, and the two
wordings differ. -/
theorem c4_nonint_error_message (key : String) (data : List Rec)
    (hty : ∀ d ∈ data, scalarAt key d = true)
    (hex : data.any (badAt key) = true) :
    ∃ v, (∃ d ∈ data, rlookup d key = some v) ∧
      safe_dict_min key data =
        .error (.cloudException (extremumMsg false key v)) ∧
      safe_dict_max key data =
        .error (.cloudException (extremumMsg true key v)) ∧
      extremumMsg false key v ≠ extremumMsg true key v := by
  obtain ⟨v, hmem, herr⟩ := safe_dict_extremum_err key data hty hex
  exact ⟨v, hmem, herr false Option.none, herr true Option.none,
    extremumMsg_ne key v⟩

theorem normalize_flavor_core_props (ctx : Ctx) (f nf leftover : Rec)
    (hc : normalize_flavor_core ctx f = .ok (nf, leftover)) :
    rlookup nf "properties" = some (.dict leftover) := by
  unfold normalize_flavor_core at hc
  simp only [bind, Except.bind, pure, Except.pure, Except.map, pop_int,
    pop_float, rpop, rpopD, pop_or_get] at hc
  repeat' split at hc
  all_goals first
    | exact Except.noConfusion hc
    | (injection hc with hpair;
       rw [Prod.mk.injEq] at hpair;
       obtain ⟨hnf, hleft⟩ := hpair;
       subst hnf; subst hleft;
       simp [rlookup])

/-- C2 (amended, proved for the flavor normalizer): with strict mode off,
a successful normalization is the setdefault-flattening of the core record
over its leftover raw fields: every non-promoted raw field sits inside
`properties` (the core's `properties` is exactly the leftover dict); a key
already set by the normalizer keeps its canonical value (the flattening
never overwrites); and every leftover field whose name is not a canonical
key is duplicated at top level with its raw value. (The image normalizer
violates the no-overwrite part — see the counterexample — because it
flattens with plain assignment instead of setdefault.) -/
theorem c2_flavor_flatten_preserves (ctx : Ctx) (f out : Rec)
    (hs : ctx.strict_mode = false)
    (h : normalize_flavor ctx f = .ok out) :
    ∃ nf leftover, normalize_flavor_core ctx f = .ok (nf, leftover) ∧
      rlookup nf "properties" = some (.dict leftover) ∧
      (∀ k, (rlookup nf k).isSome → rlookup out k = rlookup nf k) ∧
      (∀ k, rlookup nf k = Option.none →
        rlookup out k = rlookup leftover k) := by
  unfold normalize_flavor at h
  rcases hc : normalize_flavor_core ctx f with e | p
  · simp only [hc, bind, Except.bind] at h
    exact Except.noConfusion h
  · obtain ⟨nf, leftover⟩ := p
    simp only [hc, bind, Except.bind, hs, Bool.false_eq_true, if_false,
      pure, Except.pure] at h
    injection h with h
    subst h
    exact ⟨nf, leftover, rfl, normalize_flavor_core_props ctx f nf leftover hc,
      fun k hk => rlookup_flattenProps_of_isSome _ _ _ hk,
      fun k hk => rlookup_flattenProps_of_none _ _ _ hk⟩

/-- C2 witness: the flavor `flvTest` normalized in the non-strict context
`ctxTest`. -/
theorem c2_flavor_flatten_preserves_witness :
    ∃ nf leftover, normalize_flavor_core ctxTest flvTest = .ok (nf, leftover) ∧
      rlookup nf "properties" = some (.dict leftover) ∧
      (∀ k, (rlookup nf k).isSome →
        rlookup (okOr (normalize_flavor ctxTest flvTest)) k = rlookup nf k) ∧
      (∀ k, rlookup nf k = Option.none →
        rlookup (okOr (normalize_flavor ctxTest flvTest)) k =
          rlookup leftover k) :=
  c2_flavor_flatten_preserves ctxTest flvTest
    (okOr (normalize_flavor ctxTest flvTest)) rfl (by decide)

set_option maxHeartbeats 4000000 in
/-- C7: a raw security-group rule carrying the nova convention
`from_port = -1, to_port = -1` (and no neutron-style `port_range_min` /
`port_range_max` keys; `ip_range`, when present, a mapping) normalizes
successfully with both canonical port bounds canonicalized to `None`. -/
theorem c7_secgroup_rule_unbounded_ports (ctx : Ctx) (rule : Rec)
    (idv : Value)
    (hid : rlookup rule "id" = some idv)
    (hfrom : rlookup rule "from_port" = some (.int (-1)))
    (hto : rlookup rule "to_port" = some (.int (-1)))
    (hmin : rlookup rule "port_range_min" = Option.none)
    (hmax : rlookup rule "port_range_max" = Option.none)
    (hrange : ∀ v, rlookup rule "ip_range" = some v → ∃ d, v = Value.dict d) :
    ∃ out, normalize_secgroup_rule ctx rule = .ok out ∧
      rlookup out "port_range_min" = some Value.none ∧
      rlookup out "port_range_max" = some Value.none := by
  unfold normalize_secgroup_rule
  simp only [rpop, hid, bind, Except.bind, pure, Except.pure]
  simp only [rpopD_fst, rpopD_snd]
  generalize hg1 : rerase rule "id" = r1
  generalize hg2 : rerase r1 "direction" = r2
  generalize hg3 : rerase r2 "ethertype" = r3
  generalize hg4 : rerase r3 "from_port" = r4
  generalize hg5 : rerase r4 "to_port" = r5
  generalize hg6 : rerase r5 "port_range_max" = r6
  generalize hg7 : rerase r6 "ip_protocol" = r7
  generalize hg8 : rerase r7 "protocol" = r8
  generalize hg9 : rerase r8 "ip_range" = r9
  generalize hg10 : rerase r9 "remote_ip_prefix" = r10
  generalize hg11 : rerase r10 "parent_group_id" = r11
  generalize hg12 : rerase r11 "security_group_id" = r12
  generalize hg13 : rerase r12 "remote_group_id" = r13
  generalize hg14 : rerase r13 "tenant_id" = r14
  generalize hg15 : rerase r14 "project_id" = r15
  have h3from : rlookup r3 "from_port" = some (.int (-1)) := by
    simp [← hg3, ← hg2, ← hg1, hfrom]
  have h4min : rlookup r4 "port_range_min" = Option.none := by
    simp [← hg4, ← hg3, ← hg2, ← hg1, hmin]
  have h4to : rlookup r4 "to_port" = some (.int (-1)) := by
    simp [← hg4, ← hg3, ← hg2, ← hg1, hto]
  have h5max : rlookup r5 "port_range_max" = Option.none := by
    simp [← hg5, ← hg4, ← hg3, ← hg2, ← hg1, hmax]
  have h8range : rlookup r8 "ip_range" = rlookup rule "ip_range" := by
    simp [← hg8, ← hg7, ← hg6, ← hg5, ← hg4, ← hg3, ← hg2, ← hg1]
  rw [h3from, h4min, h4to, h5max]
  simp only [Option.getD_some, Option.getD_none, pyEqNeg1, beq_self_eq_true,
    if_true, ite_true, eq_self_iff_true, if_pos]
  rw [h8range]
  have hcidr : ∃ w, vget ((rlookup rule "ip_range").getD (Value.dict []))
      "cidr" = .ok w := by
    rcases hir : rlookup rule "ip_range" with _ | v
    · exact ⟨Value.none, rfl⟩
    · obtain ⟨d, rfl⟩ := hrange v hir
      exact ⟨(rlookup d "cidr").getD Value.none, rfl⟩
  obtain ⟨w, hw⟩ := hcidr
  rw [hw]
  rcases hsm : ctx.strict_mode with _ | _
  · simp only [Bool.false_eq_true, if_false]
    refine ⟨_, rfl, ?_, ?_⟩
    · rw [rlookup_compat_block _ _ _ _ (by simp) (by simp) (by simp [rlookup])]
      simp [rlookup]
    · rw [rlookup_compat_block _ _ _ _ (by simp) (by simp) (by simp [rlookup])]
      simp [rlookup]
  · simp only [if_true, ite_true, eq_self_iff_true]
    refine ⟨_, rfl, ?_, ?_⟩
    · simp [rlookup]
    · simp [rlookup]

/-- C7 witness: the concrete rule `secruleTest` in `ctxTest`. -/
theorem c7_secgroup_rule_unbounded_ports_witness :
    ∃ out, normalize_secgroup_rule ctxTest secruleTest = .ok out ∧
      rlookup out "port_range_min" = some Value.none ∧
      rlookup out "port_range_max" = some Value.none :=
  c7_secgroup_rule_unbounded_ports ctxTest secruleTest (.str "r1")
    (by decide) (by decide) (by decide) (by decide) (by decide)
    (fun v hv => Option.noConfusion
      ((by decide : rlookup secruleTest "ip_range" = Option.none).symm.trans hv))

set_option maxHeartbeats 4000000 in
/-- C10: on every successful security-group-rule normalization, the two
port bounds are coerced asymmetrically: a canonical `port_range_min` other
than `None` is always an `int`, while the canonical `port_range_max` is
exactly the raw `port_range_max` value apart from the `-1`-to-`None`
mapping (a numeric string stays a string) — the guarded `int()` conversion
written after the max extraction (lines 256-257) re-converts
`port_range_min` instead, and only rebinds a local. -/
theorem c10_port_coercion_asymmetry (ctx : Ctx) (rule out : Rec)
    (h : normalize_secgroup_rule ctx rule = .ok out) :
    (∀ v, rlookup out "port_range_min" = some v → v ≠ Value.none →
      ∃ n, v = Value.int n) ∧
    (∀ w, rlookup rule "port_range_max" = some w →
      rlookup out "port_range_max" =
        some (if pyEqNeg1 w then Value.none else w)) := by
  unfold normalize_secgroup_rule at h
  simp only [rpop, bind, Except.bind, pure, Except.pure, rpopD_fst,
    rpopD_snd] at h
  split at h
  case _ => exact Except.noConfusion h
  case _ idv heq =>
  rcases hl : rlookup rule "id" with _ | v0
  · rw [hl] at heq; exact Except.noConfusion heq
  rw [hl] at heq
  injection heq with heq
  rw [show idv.2 = rerase rule "id" from congrArg Prod.snd heq.symm] at h
  revert h
  generalize hg1 : rerase rule "id" = r1
  generalize hg2 : rerase r1 "direction" = r2
  generalize hg3 : rerase r2 "ethertype" = r3
  generalize hg4 : rerase r3 "from_port" = r4
  generalize hg5 : rerase r4 "to_port" = r5
  generalize hg6 : rerase r5 "port_range_max" = r6
  generalize hg7 : rerase r6 "ip_protocol" = r7
  generalize hg8 : rerase r7 "protocol" = r8
  generalize hg9 : rerase r8 "ip_range" = r9
  generalize hg10 : rerase r9 "remote_ip_prefix" = r10
  generalize hg11 : rerase r10 "parent_group_id" = r11
  generalize hg12 : rerase r11 "security_group_id" = r12
  generalize hg13 : rerase r12 "remote_group_id" = r13
  generalize hg14 : rerase r13 "tenant_id" = r14
  generalize hg15 : rerase r14 "project_id" = r15
  have h5max : rlookup r5 "port_range_max" = rlookup rule "port_range_max" := by
    simp [← hg5, ← hg4, ← hg3, ← hg2, ← hg1]
  generalize hpm0 : (rlookup r4 "port_range_min").getD
    ((rlookup r3 "from_port").getD Value.none) = pm0
  generalize hpx0 : (rlookup r5 "port_range_max").getD
    ((rlookup r4 "to_port").getD Value.none) = px0
  generalize hpm1 : (if pyEqNeg1 pm0 = true then Value.none else pm0) = pm1
  generalize hpx1 : (if pyEqNeg1 px0 = true then Value.none else px0) = px1
  intro h
  have hpartB : ∀ w, rlookup rule "port_range_max" = some w → px1 =
      (if pyEqNeg1 w then Value.none else w) := by
    intro w hw
    rw [← hpx1, ← hpx0, h5max, hw]
    simp
  simp only [if_true, ite_true] at h
  split at h
  case _ hC1 =>
    split at h
    all_goals try exact Except.noConfusion h
    rename_i w hvget
    split at h
    all_goals
      injection h with h
    all_goals
      subst h
    all_goals constructor
    case _ =>
      intro v1 hv1 hne
      simp [rlookup] at hv1
      first
        | exact absurd hv1 hne
        | exact absurd hv1.symm hne
    case _ =>
      intro w2 hw2
      rw [hpartB w2 hw2]
      simp [rlookup]
    case _ =>
      intro v1 hv1 hne
      rw [rlookup_compat_block _ _ _ _ (by simp) (by simp)
        (by simp [rlookup])] at hv1
      simp [rlookup] at hv1
      first
        | exact absurd hv1 hne
        | exact absurd hv1.symm hne
    case _ =>
      intro w2 hw2
      rw [rlookup_compat_block _ _ _ _ (by simp) (by simp)
        (by simp [rlookup])]
      rw [hpartB w2 hw2]
      simp [rlookup]
  case _ hC1 =>
    split at h
    all_goals try exact Except.noConfusion h
    rename_i v2 hv2
    rcases hpi : pyToInt pm1 with e | n
    · rw [hpi] at hv2
      simp [Except.map] at hv2
    rw [hpi] at hv2
    simp only [Except.map] at hv2
    injection hv2 with hv2
    subst hv2
    rw [if_neg (by simp)] at h
    simp only [pyToInt, Except.map] at h
    split at h
    all_goals try exact Except.noConfusion h
    rename_i w hvget
    split at h
    all_goals
      injection h with h
    all_goals
      subst h
    all_goals constructor
    case _ =>
      intro v1 hv1 hne
      simp [rlookup] at hv1
      exact ⟨n, hv1.symm⟩
    case _ =>
      intro w2 hw2
      rw [hpartB w2 hw2]
      simp [rlookup]
    case _ =>
      intro v1 hv1 hne
      rw [rlookup_compat_block _ _ _ _ (by simp) (by simp)
        (by simp [rlookup])] at hv1
      simp [rlookup] at hv1
      exact ⟨n, hv1.symm⟩
    case _ =>
      intro w2 hw2
      rw [rlookup_compat_block _ _ _ _ (by simp) (by simp)
        (by simp [rlookup])]
      rw [hpartB w2 hw2]
      simp [rlookup]

/-- C10 witness: `secruleStrTest` keeps `port_range_max` as the string
`"81"` while `port_range_min` became the integer 80. -/
theorem c10_port_coercion_asymmetry_witness :
    ((∀ v, rlookup (okOr (normalize_secgroup_rule ctxTest secruleStrTest))
        "port_range_min" = some v → v ≠ Value.none → ∃ n, v = Value.int n) ∧
     (∀ w, rlookup secruleStrTest "port_range_max" = some w →
        rlookup (okOr (normalize_secgroup_rule ctxTest secruleStrTest))
          "port_range_max" =
          some (if pyEqNeg1 w then Value.none else w))) ∧
    rlookup (okOr (normalize_secgroup_rule ctxTest secruleStrTest))
      "port_range_min" = some (Value.int 80) ∧
    rlookup (okOr (normalize_secgroup_rule ctxTest secruleStrTest))
      "port_range_max" = some (Value.str "81") :=
  ⟨c10_port_coercion_asymmetry ctxTest secruleStrTest
      (okOr (normalize_secgroup_rule ctxTest secruleStrTest)) (by decide),
   by decide, by decide⟩


set_option maxHeartbeats 4000000 in
/-- C8: a raw server whose `image` value is a bare string (booted from
volume) — with the mandatory `id`/`name` present, a mapping-shaped
`flavor`, and a well-formed `progress` — normalizes without error, and the
canonical `image` field is that string unchanged: the
`str(server['image']) != server['image']` guard skips link-stripping
exactly for strings. -/
theorem c8_server_string_image (ctx : Ctx) (server : Rec) (iv nv : Value) (fd : Rec)
    (s : String)
    (hid : rlookup server "id" = some iv)
    (hname : rlookup server "name" = some nv)
    (hfl : rlookup server "flavor" = some (Value.dict fd))
    (him : rlookup server "image" = some (Value.str s))
    (hprog : ∀ v, rlookup server "progress" = some v →
      pyFalsy v = true ∨ ∃ n, v = Value.int n) :
    ∃ out, normalize_server ctx server = .ok out ∧
      rlookup out "image" = some (Value.str s) := by
  unfold normalize_server
  simp only [rpop, bind, Except.bind, pure, Except.pure]
  generalize hg0 : rerase (rerase (rerase (rerase server "links")
    "NAME_ATTR") "HUMAN_ID") "human_id" = s0
  have h0id : rlookup s0 "id" = some iv := by simp [← hg0, hid]
  simp only [h0id]
  generalize hg1 : rerase s0 "id" = s1
  have h1name : rlookup s1 "name" = some nv := by simp [← hg1, ← hg0, hname]
  simp only [h1name]
  generalize hg2 : rerase s1 "name" = s2
  have h2fl : rlookup s2 "flavor" = some (Value.dict fd) := by
    simp [← hg2, ← hg1, ← hg0, hfl]
  simp only [h2fl, vpop]
  have h2im : rlookup (rerase s2 "flavor") "image" = some (Value.str s) := by
    simp [← hg2, ← hg1, ← hg0, him]
  simp only [h2im]
  generalize hg3 : rerase (rerase s2 "flavor") "image" = s3
  rcases hsm : ctx.strict_mode with _ | _
  all_goals simp only [hsm, pop_or_get, rpopD_fst, rpopD_snd, if_true,
    if_false, Bool.false_eq_true, ite_true, ite_false]
  · -- strict_mode = false
    generalize hg4 : rerase (rerase (rerase (rerase s3 "tenant_id")
      "project_id") "config_drive") "hostId" = s4
    have h4prog : ∀ v, rlookup s4 "progress" = some v →
        pyFalsy v = true ∨ ∃ n, v = Value.int n := by
      intro v hv
      refine hprog v ?_
      rw [← hv, ← hg4, ← hg3, ← hg2, ← hg1, ← hg0]
      simp
    obtain ⟨m, hm⟩ := pop_int_ok s4 "progress" h4prog
    simp only [hm]
    refine ⟨_, rfl, ?_⟩
    rw [rlookup_flattenProps_of_isSome] <;> simp [rlookup_rset]
  · -- strict_mode = true
    generalize hg4 : rerase (rerase (rerase (rerase (rerase (rerase s3
      "tenant_id") "project_id") "OS-EXT-AZ:availability_zone")
      "os-extended-volumes:volumes_attached") "config_drive") "hostId" = s4
    have h4prog : ∀ v, rlookup s4 "progress" = some v →
        pyFalsy v = true ∨ ∃ n, v = Value.int n := by
      intro v hv
      refine hprog v ?_
      rw [← hv, ← hg4, ← hg3, ← hg2, ← hg1, ← hg0]
      simp
    obtain ⟨m, hm⟩ := pop_int_ok s4 "progress" h4prog
    simp only [hm]
    exact ⟨_, rfl, by simp⟩

/-- C8 witness: the volume-booted server `srvTest` in `ctxTest`. -/
theorem c8_server_string_image_witness :
    ∃ out, normalize_server ctxTest srvTest = .ok out ∧
      rlookup out "image" = some (Value.str "vol-boot") :=
  c8_server_string_image ctxTest srvTest (.str "s1") (.str "srv")
    [("id", .str "f1"), ("links", .list [])] "vol-boot"
    (by decide) (by decide) (by decide) (by decide)
    (fun v hv => Option.noConfusion
      ((by decide : rlookup srvTest "progress" = Option.none).symm.trans hv))


set_option maxHeartbeats 4000000 in
/-- C9: even with the documented mandatory identity fields `id` and `name`
present, `_normalize_server` requires `flavor` and `image`: a raw server
lacking the `flavor` key fails with `KeyError('flavor')` (raised by
`server['flavor']`), and one with a mapping `flavor` but no `image` key
fails with `KeyError('image')` — the fields are never defaulted. -/
theorem c9_server_requires_flavor_and_image (ctx : Ctx) (server : Rec)
    (iv nv : Value)
    (hid : rlookup server "id" = some iv)
    (hname : rlookup server "name" = some nv) :
    (rlookup server "flavor" = Option.none →
      normalize_server ctx server = .error (.keyError "flavor")) ∧
    (∀ fd, rlookup server "flavor" = some (Value.dict fd) →
      rlookup server "image" = Option.none →
      normalize_server ctx server = .error (.keyError "image")) := by
  unfold normalize_server
  simp only [rpop, bind, Except.bind, pure, Except.pure]
  generalize hg0 : rerase (rerase (rerase (rerase server "links")
    "NAME_ATTR") "HUMAN_ID") "human_id" = s0
  have h0id : rlookup s0 "id" = some iv := by simp [← hg0, hid]
  simp only [h0id]
  generalize hg1 : rerase s0 "id" = s1
  have h1name : rlookup s1 "name" = some nv := by simp [← hg1, ← hg0, hname]
  simp only [h1name]
  generalize hg2 : rerase s1 "name" = s2
  have h2fl : rlookup s2 "flavor" = rlookup server "flavor" := by
    simp [← hg2, ← hg1, ← hg0]
  constructor
  · intro hfl
    rw [h2fl] at *
    simp only [hfl]
  · intro fd hfl him
    simp only [h2fl, hfl, vpop]
    have h2im : rlookup (rerase s2 "flavor") "image" = Option.none := by
      simp [← hg2, ← hg1, ← hg0, him]
    simp only [h2im]

/-- C9 witness: servers with `id` and `name` but no `flavor`, and with a
`flavor` mapping but no `image`. -/
theorem c9_server_requires_flavor_and_image_witness :
    (rlookup [(("id" : String), Value.str "s"), ("name", Value.str "n")]
        "flavor" = Option.none →
      normalize_server ctxTest [(("id" : String), Value.str "s"),
        ("name", Value.str "n")] = .error (.keyError "flavor")) ∧
    (∀ fd, rlookup [(("id" : String), Value.str "s"), ("name", Value.str "n")]
        "flavor" = some (Value.dict fd) →
      rlookup [(("id" : String), Value.str "s"), ("name", Value.str "n")]
        "image" = Option.none →
      normalize_server ctxTest [(("id" : String), Value.str "s"),
        ("name", Value.str "n")] = .error (.keyError "image")) :=
  c9_server_requires_flavor_and_image ctxTest
    [("id", Value.str "s"), ("name", Value.str "n")]
    (Value.str "s") (Value.str "n") (by decide) (by decide)


/-- C4 witness: the data of `test_safe_dict_min_not_int` /
`test_safe_dict_max_not_int`, with the offending value `"aaa"`. -/
theorem c4_nonint_error_message_witness :
    ∃ v, (∃ d ∈ [[("f1", Value.int 3)], [("f1", Value.str "aaa")],
        [("f1", Value.int 1)]], rlookup d "f1" = some v) ∧
      safe_dict_min "f1" [[("f1", Value.int 3)], [("f1", Value.str "aaa")],
        [("f1", Value.int 1)]] =
        .error (.cloudException (extremumMsg false "f1" v)) ∧
      safe_dict_max "f1" [[("f1", Value.int 3)], [("f1", Value.str "aaa")],
        [("f1", Value.int 1)]] =
        .error (.cloudException (extremumMsg true "f1" v)) ∧
      extremumMsg false "f1" v ≠ extremumMsg true "f1" v :=
  c4_nonint_error_message "f1"
    [[("f1", Value.int 3)], [("f1", Value.str "aaa")], [("f1", Value.int 1)]]
    (by decide) (by decide)

end Shade
